import Mathlib

/-!
# Verification of the CareerPilot edge worker (Cloudflare BFF)

Shallow embedding of the Cloudflare Worker in `apps/worker/src/index.ts`:
the `fetch` router, `handlePlanRequest`, `handleChatbotRequest`,
`handleCareersRequest`, `checkRateLimit`, `incrementRateLimit`,
`hashQuizData`, `hashString`, `corsHeaders` and `handleCORS`.

JSON values are modelled by the inductive `Json` below; JSON numbers are
restricted to integers (the worker never manipulates fractional numbers and
no property below depends on float formatting).  `JSON.stringify` is
modelled by `Json.stringify`, `JSON.parse` (as used by the KV `get(key,
'json')` read) by `jsonParse`, and SHA-256 is implemented in full.
-/

namespace CareerPilot

/-- A JSON value.  `obj` keeps fields as an association list; well-formed
objects have pairwise-distinct keys. -/
inductive Json where
  | null
  | bool (b : Bool)
  | num (n : Int)
  | str (s : String)
  | arr (elems : List Json)
  | obj (fields : List (String × Json))

/-- Big-endian decimal digits, with structural fuel above the value. -/
def natToCharsAux : Nat → Nat → List Char
  | 0, _ => []
  | fuel + 1, n =>
    if n < 10 then [Char.ofNat (48 + n)]
    else natToCharsAux fuel (n / 10) ++ [Char.ofNat (48 + n % 10)]

/-- Big-endian decimal digits of a natural number, as characters. -/
def natToChars (n : Nat) : List Char := natToCharsAux (n + 1) n

theorem natToCharsAux_mono (n : Nat) :
    ∀ fuel fuel', n < fuel → n < fuel' → natToCharsAux fuel n = natToCharsAux fuel' n := by
  induction n using Nat.strong_induction_on with
  | _ n ih =>
    intro fuel fuel' hf hf'
    match fuel, fuel' with
    | f + 1, f' + 1 =>
      rw [natToCharsAux, natToCharsAux]
      split
      · rfl
      · rename_i h
        have hlt : n / 10 < n := Nat.div_lt_self (by omega) (by omega)
        rw [ih (n / 10) hlt f f' (by omega) (by omega)]

/-- The one-step unfolding of `natToChars`. -/
theorem natToChars_unfold (n : Nat) :
    natToChars n = if n < 10 then [Char.ofNat (48 + n)]
      else natToChars (n / 10) ++ [Char.ofNat (48 + n % 10)] := by
  unfold natToChars
  rw [natToCharsAux]
  split
  · rfl
  · rename_i h
    have hlt : n / 10 < n := Nat.div_lt_self (by omega) (by omega)
    rw [natToCharsAux_mono (n / 10) n (n / 10 + 1) (by omega) (by omega)]

/-- Decimal rendering of an integer, as produced by JS number printing for
integral values. -/
def intToChars (n : Int) : List Char :=
  if n < 0 then '-' :: natToChars n.natAbs else natToChars n.natAbs

/-- Lower-case hexadecimal digit. -/
def hexDig (d : Nat) : Char :=
  if d < 10 then Char.ofNat (48 + d) else Char.ofNat (87 + d)

/-- The string escaping performed by `JSON.stringify`: `"` and backslash get
a backslash, the five named control characters use their short escapes, the
remaining control characters use `\u00XX`. -/
def escChar (c : Char) : List Char :=
  if c = '"' then ['\\', '"']
  else if c = '\\' then ['\\', '\\']
  else if c = Char.ofNat 8 then ['\\', 'b']
  else if c = Char.ofNat 9 then ['\\', 't']
  else if c = Char.ofNat 10 then ['\\', 'n']
  else if c = Char.ofNat 12 then ['\\', 'f']
  else if c = Char.ofNat 13 then ['\\', 'r']
  else if c.toNat < 32 then ['\\', 'u', '0', '0', hexDig (c.toNat / 16), hexDig (c.toNat % 16)]
  else [c]

/-- A double-quoted JSON string literal. -/
def sStr (s : String) : List Char :=
  '"' :: (s.data.map escChar).flatten ++ ['"']

mutual

/-- `JSON.stringify` (compact form, no added whitespace), character list. -/
def sV : Json → List Char
  | .null => 'n' :: ['u', 'l', 'l']
  | .bool true => 't' :: ['r', 'u', 'e']
  | .bool false => 'f' :: ['a', 'l', 's', 'e']
  | .num n => intToChars n
  | .str s => sStr s
  | .arr xs => '[' :: sElems xs ++ [']']
  | .obj fs => '{' :: sFields fs ++ ['}']

/-- Comma-separated array elements. -/
def sElems : List Json → List Char
  | [] => []
  | [j] => sV j
  | j :: tl => sV j ++ ',' :: sElems tl

/-- Comma-separated `"key":value` fields. -/
def sFields : List (String × Json) → List Char
  | [] => []
  | [(k, v)] => sStr k ++ ':' :: sV v
  | (k, v) :: tl => sStr k ++ ':' :: sV v ++ ',' :: sFields tl

end

/-- `JSON.stringify`. -/
def Json.stringify (j : Json) : String := ⟨sV j⟩

/-! ## A JSON parser

`jsonParse` models `JSON.parse` on the fragment of JSON the worker ever
reads back: the values this file's `Json.stringify` produces (compact,
integer numbers).  A string that does not parse models an input on which
`JSON.parse` throws. -/

/-- Value of a hexadecimal digit character. -/
def hexVal (c : Char) : Option Nat :=
  if 48 ≤ c.toNat ∧ c.toNat ≤ 57 then some (c.toNat - 48)
  else if 97 ≤ c.toNat ∧ c.toNat ≤ 102 then some (c.toNat - 87)
  else if 65 ≤ c.toNat ∧ c.toNat ≤ 70 then some (c.toNat - 55)
  else none

/-- Inverse of the named short escapes of `escChar`. -/
def unescChar (c : Char) : Option Char :=
  if c = '"' then some '"'
  else if c = '\\' then some '\\'
  else if c = '/' then some '/'
  else if c = 'b' then some (Char.ofNat 8)
  else if c = 't' then some (Char.ofNat 9)
  else if c = 'n' then some (Char.ofNat 10)
  else if c = 'f' then some (Char.ofNat 12)
  else if c = 'r' then some (Char.ofNat 13)
  else none

/-- Parse the body of a string literal, after the opening quote. -/
def pStr : List Char → Option (List Char × List Char)
  | [] => none
  | c :: rest =>
    if c = '"' then some ([], rest)
    else if c = '\\' then
      match rest with
      | [] => none
      | e :: rest2 =>
        if e = 'u' then
          match rest2 with
          | h1 :: h2 :: h3 :: h4 :: rest3 => do
            let a ← hexVal h1
            let b ← hexVal h2
            let c2 ← hexVal h3
            let d ← hexVal h4
            let (s, r) ← pStr rest3
            pure (Char.ofNat (4096 * a + 256 * b + 16 * c2 + d) :: s, r)
          | _ => none
        else do
          let u ← unescChar e
          let (s, r) ← pStr rest2
          pure (u :: s, r)
    else do
      let (s, r) ← pStr rest
      pure (c :: s, r)

/-- Consume a run of decimal digits, accumulating their value. -/
def pNumAux (acc : Nat) : List Char → Nat × List Char
  | [] => (acc, [])
  | c :: rest =>
    if c.isDigit then pNumAux (10 * acc + (c.toNat - 48)) rest
    else (acc, c :: rest)

/-- Parse a natural number literal (at least one digit). -/
def pNum : List Char → Option (Nat × List Char)
  | [] => none
  | c :: rest =>
    if c.isDigit then some (pNumAux 0 (c :: rest)) else none

mutual

/-- Parse one JSON value; the fuel bounds the nesting depth. -/
def pVal : Nat → List Char → Option (Json × List Char)
  | 0, _ => none
  | _ + 1, [] => none
  | n + 1, c :: rest =>
    if c = 'n' then
      match rest with
      | 'u' :: 'l' :: 'l' :: r => some (.null, r)
      | _ => none
    else if c = 't' then
      match rest with
      | 'r' :: 'u' :: 'e' :: r => some (.bool true, r)
      | _ => none
    else if c = 'f' then
      match rest with
      | 'a' :: 'l' :: 's' :: 'e' :: r => some (.bool false, r)
      | _ => none
    else if c = '"' then (pStr rest).map (fun p => (.str ⟨p.1⟩, p.2))
    else if c = '[' then (pElems n rest).map (fun p => (.arr p.1, p.2))
    else if c = '{' then (pFields n rest).map (fun p => (.obj p.1, p.2))
    else if c = '-' then (pNum rest).map (fun p => (.num (-(p.1 : Int)), p.2))
    else if c.isDigit then (pNum (c :: rest)).map (fun p => (.num (p.1 : Int), p.2))
    else none

/-- Parse array elements up to the closing bracket. -/
def pElems : Nat → List Char → Option (List Json × List Char)
  | 0, _ => none
  | _ + 1, [] => none
  | n + 1, c :: rest =>
    if c = ']' then some ([], rest)
    else do
      let (j, r1) ← pVal n (c :: rest)
      match r1 with
      | ',' :: r2 => do
        let (tl, r3) ← pElems n r2
        pure (j :: tl, r3)
      | ']' :: r2 => pure ([j], r2)
      | _ => none

/-- Parse object fields up to the closing brace. -/
def pFields : Nat → List Char → Option (List (String × Json) × List Char)
  | 0, _ => none
  | _ + 1, [] => none
  | n + 1, c :: rest =>
    if c = '}' then some ([], rest)
    else if c = '"' then do
      let (k, r1) ← pStr rest
      match r1 with
      | ':' :: r2 => do
        let (v, r3) ← pVal n r2
        match r3 with
        | ',' :: r4 => do
          let (tl, r5) ← pFields n r4
          pure ((⟨k⟩, v) :: tl, r5)
        | '}' :: r4 => pure ([(⟨k⟩, v)], r4)
        | _ => none
      | _ => none
    else none

end

/-- `JSON.parse`: a full parse of the string, `none` when `JSON.parse`
would throw. -/
def jsonParse (s : String) : Option Json :=
  match pVal (2 * s.data.length + 2) s.data with
  | some (j, []) => some j
  | _ => none

/-! ## Parse/stringify roundtrip -/

/-- A tail that cannot extend a number literal. -/
def goodTail : List Char → Bool
  | [] => true
  | c :: _ => !c.isDigit

theorem digit_isDigit {d : Nat} (h : d < 10) : (Char.ofNat (48 + d)).isDigit = true := by
  interval_cases d <;> decide

theorem digit_toNat {d : Nat} (h : d < 10) : (Char.ofNat (48 + d)).toNat = 48 + d := by
  interval_cases d <;> decide

theorem natToChars_ne_nil (n : Nat) : natToChars n ≠ [] := by
  rw [natToChars_unfold]
  split <;> simp

theorem natToChars_digits (n : Nat) : ∀ c ∈ natToChars n, c.isDigit = true := by
  induction n using Nat.strong_induction_on with
  | _ n ih =>
    rw [natToChars_unfold]
    split
    · rename_i h
      intro c hc
      simp only [List.mem_singleton] at hc
      subst hc
      exact digit_isDigit h
    · rename_i h
      intro c hc
      rcases List.mem_append.mp hc with hm | hm
      · exact ih (n / 10) (Nat.div_lt_self (by omega) (by omega)) c hm
      · simp only [List.mem_singleton] at hm
        subst hm
        exact digit_isDigit (Nat.mod_lt _ (by omega))

theorem pNumAux_stop {rest : List Char} (h : goodTail rest = true) (a : Nat) :
    pNumAux a rest = (a, rest) := by
  cases rest with
  | nil => rfl
  | cons c tl =>
    simp only [goodTail, Bool.not_eq_true'] at h
    simp [pNumAux, h]

theorem pNumAux_natToChars (n : Nat) :
    ∀ acc rest, pNumAux acc (natToChars n ++ rest) =
      pNumAux (acc * 10 ^ (natToChars n).length + n) rest := by
  induction n using Nat.strong_induction_on with
  | _ n ih =>
    intro acc rest
    rw [natToChars_unfold]
    split
    · rename_i h
      simp only [List.singleton_append, List.length_singleton, pow_one]
      rw [pNumAux]
      simp [digit_isDigit h, digit_toNat h, Nat.mul_comm]
    · rename_i h
      rw [List.append_assoc, ih (n / 10) (Nat.div_lt_self (by omega) (by omega))]
      simp only [List.singleton_append]
      rw [pNumAux]
      have h10 : n % 10 < 10 := Nat.mod_lt _ (by omega)
      simp only [digit_isDigit h10, if_pos, digit_toNat h10, List.length_append,
        List.length_singleton]
      have hdm : 10 * (n / 10) + n % 10 = n := Nat.div_add_mod n 10
      have hp : 10 ^ ((natToChars (n / 10)).length + 1) =
          10 ^ (natToChars (n / 10)).length * 10 := pow_succ 10 _
      rw [hp]
      congr 1
      set A := acc * 10 ^ (natToChars (n / 10)).length with hA
      ring_nf
      omega

theorem pNum_natToChars (n : Nat) (rest : List Char) (hr : goodTail rest = true) :
    pNum (natToChars n ++ rest) = some (n, rest) := by
  cases hshape : natToChars n with
  | nil => exact absurd hshape (natToChars_ne_nil n)
  | cons c0 cs =>
    have hd : c0.isDigit = true := natToChars_digits n c0 (by rw [hshape]; exact List.mem_cons_self _ _)
    rw [List.cons_append, pNum, if_pos hd, ← List.cons_append, ← hshape,
      pNumAux_natToChars, pNumAux_stop hr]
    simp

theorem hexVal_hexDig {d : Nat} (h : d < 16) : hexVal (hexDig d) = some d := by
  interval_cases d <;> decide

theorem pStr_quote (rest : List Char) : pStr ('"' :: rest) = some ([], rest) := by
  rw [pStr.eq_def]; simp

theorem pStr_escaped (e : Char) (rest : List Char) (hu : ¬ e = 'u') :
    pStr ('\\' :: e :: rest) = (unescChar e).bind fun u =>
      (pStr rest).bind fun p => some (u :: p.1, p.2) := by
  rw [pStr.eq_def]; simp [hu]

theorem pStr_unicode (h1 h2 h3 h4 : Char) (rest : List Char) :
    pStr ('\\' :: 'u' :: h1 :: h2 :: h3 :: h4 :: rest) =
    (hexVal h1).bind fun a => (hexVal h2).bind fun b =>
      (hexVal h3).bind fun c2 => (hexVal h4).bind fun d =>
        (pStr rest).bind fun p =>
          some (Char.ofNat (4096 * a + 256 * b + 16 * c2 + d) :: p.1, p.2) := by
  rw [pStr.eq_def]; simp

theorem pStr_plain (c : Char) (rest : List Char) (h1 : ¬ c = '"') (h2 : ¬ c = '\\') :
    pStr (c :: rest) = (pStr rest).bind fun p => some (c :: p.1, p.2) := by
  rw [pStr.eq_def]; simp [h1, h2]

theorem pStr_esc (s : List Char) :
    ∀ rest, pStr ((s.map escChar).flatten ++ '"' :: rest) = some (s, rest) := by
  induction s with
  | nil => intro rest; simpa using pStr_quote rest
  | cons c cs ih =>
    intro rest
    simp only [List.map_cons, List.flatten_cons, List.append_assoc]
    by_cases h1 : c = '"'
    · subst h1
      rw [show escChar '"' = ['\\', '"'] from rfl, List.cons_append, List.cons_append,
        List.nil_append, pStr_escaped _ _ (by decide), ih]
      rfl
    · by_cases h2 : c = '\\'
      · subst h2
        rw [show escChar '\\' = ['\\', '\\'] from rfl, List.cons_append, List.cons_append,
          List.nil_append, pStr_escaped _ _ (by decide), ih]
        rfl
      · by_cases h3 : c = Char.ofNat 8
        · subst h3
          rw [show escChar (Char.ofNat 8) = ['\\', 'b'] from rfl, List.cons_append,
            List.cons_append, List.nil_append, pStr_escaped _ _ (by decide), ih]
          rfl
        · by_cases h4 : c = Char.ofNat 9
          · subst h4
            rw [show escChar (Char.ofNat 9) = ['\\', 't'] from rfl, List.cons_append,
              List.cons_append, List.nil_append, pStr_escaped _ _ (by decide), ih]
            rfl
          · by_cases h5 : c = Char.ofNat 10
            · subst h5
              rw [show escChar (Char.ofNat 10) = ['\\', 'n'] from rfl, List.cons_append,
                List.cons_append, List.nil_append, pStr_escaped _ _ (by decide), ih]
              rfl
            · by_cases h6 : c = Char.ofNat 12
              · subst h6
                rw [show escChar (Char.ofNat 12) = ['\\', 'f'] from rfl, List.cons_append,
                  List.cons_append, List.nil_append, pStr_escaped _ _ (by decide), ih]
                rfl
              · by_cases h7 : c = Char.ofNat 13
                · subst h7
                  rw [show escChar (Char.ofNat 13) = ['\\', 'r'] from rfl, List.cons_append,
                    List.cons_append, List.nil_append, pStr_escaped _ _ (by decide), ih]
                  rfl
                · by_cases h8 : c.toNat < 32
                  · have he : escChar c = ['\\', 'u', '0', '0', hexDig (c.toNat / 16),
                        hexDig (c.toNat % 16)] := by
                      simp [escChar, h1, h2, h3, h4, h5, h6, h7, h8]
                    have hhi : c.toNat / 16 < 16 := by omega
                    have hlo : c.toNat % 16 < 16 := Nat.mod_lt _ (by omega)
                    rw [he]
                    simp only [List.cons_append, List.nil_append]
                    rw [pStr_unicode, show hexVal '0' = some 0 from rfl,
                      hexVal_hexDig hhi, hexVal_hexDig hlo, ih]
                    show some (Char.ofNat (4096 * 0 + 256 * 0 + 16 * (c.toNat / 16)
                      + c.toNat % 16) :: cs, rest) = some (c :: cs, rest)
                    have harith : 4096 * 0 + 256 * 0 + 16 * (c.toNat / 16) + c.toNat % 16
                        = c.toNat := by omega
                    rw [harith, Char.ofNat_toNat]
                  · have he : escChar c = [c] := by
                      simp [escChar, h1, h2, h3, h4, h5, h6, h7, h8]
                    rw [he, List.cons_append, List.nil_append, pStr_plain c _ h1 h2, ih]
                    rfl

mutual

/-- Structural size of a JSON value, used to bound the parser fuel. -/
def jsizeV : Json → Nat
  | .arr xs => jsizeE xs + 1
  | .obj fs => jsizeF fs + 1
  | _ => 1

/-- Structural size of an element list. -/
def jsizeE : List Json → Nat
  | [] => 1
  | j :: tl => jsizeV j + jsizeE tl + 1

/-- Structural size of a field list. -/
def jsizeF : List (String × Json) → Nat
  | [] => 1
  | (_, v) :: tl => jsizeV v + jsizeF tl + 1

end

theorem jsizeV_pos (j : Json) : 1 ≤ jsizeV j := by
  cases j <;> simp [jsizeV]

theorem jsizeE_pos (xs : List Json) : 1 ≤ jsizeE xs := by
  cases xs <;> simp [jsizeE]

theorem jsizeF_pos (fs : List (String × Json)) : 1 ≤ jsizeF fs := by
  cases fs <;> simp [jsizeF]

/-- A digit character is none of the JSON structural characters. -/
theorem digit_not_special {c : Char} (h : c.isDigit = true) :
    ¬ c = 'n' ∧ ¬ c = 't' ∧ ¬ c = 'f' ∧ ¬ c = '"' ∧ ¬ c = '[' ∧ ¬ c = '{' ∧ ¬ c = '-' ∧
    ¬ c = ']' ∧ ¬ c = ',' ∧ ¬ c = '}' ∧ ¬ c = ':' := by
  refine ⟨?_, ?_, ?_, ?_, ?_, ?_, ?_, ?_, ?_, ?_, ?_⟩ <;>
    (rintro rfl; exact absurd h (by decide))

/-- The first character of a serialized JSON value is never a closing
bracket, comma or closing brace. -/
theorem sV_head (j : Json) :
    ∃ c cs, sV j = c :: cs ∧ ¬ c = ']' ∧ ¬ c = ',' ∧ ¬ c = '}' := by
  cases j with
  | null => refine ⟨'n', _, rfl, ?_, ?_, ?_⟩ <;> decide
  | bool b =>
    cases b with
    | true => refine ⟨'t', _, rfl, ?_, ?_, ?_⟩ <;> decide
    | false => refine ⟨'f', _, rfl, ?_, ?_, ?_⟩ <;> decide
  | num n =>
    rw [sV, intToChars]
    split
    · exact ⟨'-', _, rfl, by decide, by decide, by decide⟩
    · cases hshape : natToChars n.natAbs with
      | nil => exact absurd hshape (natToChars_ne_nil _)
      | cons c0 cs =>
        have hd : c0.isDigit = true :=
          natToChars_digits _ c0 (by rw [hshape]; exact List.mem_cons_self _ _)
        obtain ⟨_, _, _, _, _, _, _, h8, h9, h10, _⟩ := digit_not_special hd
        exact ⟨c0, cs, rfl, h8, h9, h10⟩
  | str s => refine ⟨'"', _, rfl, ?_, ?_, ?_⟩ <;> decide
  | arr xs => refine ⟨'[', _, rfl, ?_, ?_, ?_⟩ <;> decide
  | obj fs => refine ⟨'{', _, rfl, ?_, ?_, ?_⟩ <;> decide

theorem pVal_null (n : Nat) (r : List Char) :
    pVal (n+1) ('n' :: 'u' :: 'l' :: 'l' :: r) = some (.null, r) := by simp [pVal]

theorem pVal_true (n : Nat) (r : List Char) :
    pVal (n+1) ('t' :: 'r' :: 'u' :: 'e' :: r) = some (.bool true, r) := by simp [pVal]

theorem pVal_false (n : Nat) (r : List Char) :
    pVal (n+1) ('f' :: 'a' :: 'l' :: 's' :: 'e' :: r) = some (.bool false, r) := by simp [pVal]

theorem pVal_str (n : Nat) (r : List Char) :
    pVal (n+1) ('"' :: r) = (pStr r).map (fun p => (Json.str ⟨p.1⟩, p.2)) := by simp [pVal]

theorem pVal_arr (n : Nat) (r : List Char) :
    pVal (n+1) ('[' :: r) = (pElems n r).map (fun p => (Json.arr p.1, p.2)) := by simp [pVal]

theorem pVal_obj (n : Nat) (r : List Char) :
    pVal (n+1) ('{' :: r) = (pFields n r).map (fun p => (Json.obj p.1, p.2)) := by simp [pVal]

theorem pVal_neg (n : Nat) (r : List Char) :
    pVal (n+1) ('-' :: r) = (pNum r).map (fun p => (Json.num (-(p.1 : Int)), p.2)) := by
  simp [pVal]

theorem pVal_digit (n : Nat) (c : Char) (r : List Char) (h : c.isDigit = true) :
    pVal (n+1) (c :: r) = (pNum (c :: r)).map (fun p => (Json.num (p.1 : Int), p.2)) := by
  obtain ⟨h1, h2, h3, h4, h5, h6, h7, _, _, _, _⟩ := digit_not_special h
  simp [pVal, h1, h2, h3, h4, h5, h6, h7, h]

theorem pElems_close (n : Nat) (r : List Char) : pElems (n+1) (']' :: r) = some ([], r) := by
  simp [pElems]

theorem pElems_cons (n : Nat) (c : Char) (r : List Char) (h : ¬ c = ']') :
    pElems (n+1) (c :: r) = (pVal n (c :: r)).bind fun p =>
      match p.2 with
      | ',' :: r2 => (pElems n r2).bind fun q => some (p.1 :: q.1, q.2)
      | ']' :: r2 => some ([p.1], r2)
      | _ => none := by
  simp [pElems, h]

theorem pFields_close (n : Nat) (r : List Char) : pFields (n+1) ('}' :: r) = some ([], r) := by
  simp [pFields]

theorem pFields_cons (n : Nat) (r : List Char) :
    pFields (n+1) ('"' :: r) = (pStr r).bind fun kp =>
      match kp.2 with
      | ':' :: r2 => (pVal n r2).bind fun vp =>
          match vp.2 with
          | ',' :: r4 => (pFields n r4).bind fun q => some ((⟨kp.1⟩, vp.1) :: q.1, q.2)
          | '}' :: r4 => some ([(⟨kp.1⟩, vp.1)], r4)
          | _ => none
      | _ => none := by
  simp [pFields]

mutual

/-- Parsing inverts stringification, for any non-digit-leading tail. -/
theorem rtV : ∀ (j : Json) (n : Nat) (rest : List Char),
    jsizeV j ≤ n → goodTail rest = true → pVal n (sV j ++ rest) = some (j, rest)
  | j, 0, _ => fun h _ => absurd h (by have := jsizeV_pos j; omega)
  | .null, n + 1, rest => fun _ _ => by
      simp only [sV, List.cons_append, List.nil_append]
      exact pVal_null n rest
  | .bool true, n + 1, rest => fun _ _ => by
      simp only [sV, List.cons_append, List.nil_append]
      exact pVal_true n rest
  | .bool false, n + 1, rest => fun _ _ => by
      simp only [sV, List.cons_append, List.nil_append]
      exact pVal_false n rest
  | .num m, n + 1, rest => fun _ hr => by
      simp only [sV]
      rw [intToChars]
      split
      · rename_i hneg
        rw [List.cons_append, pVal_neg, pNum_natToChars _ _ hr]
        simp only [Option.map_some']
        have hcast : -(m.natAbs : Int) = m := by omega
        rw [hcast]
      · rename_i hpos
        cases hshape : natToChars m.natAbs with
        | nil => exact absurd hshape (natToChars_ne_nil _)
        | cons c0 cs =>
          have hd : c0.isDigit = true :=
            natToChars_digits _ c0 (by rw [hshape]; exact List.mem_cons_self _ _)
          have hstep : pNum (c0 :: (cs ++ rest)) = some (m.natAbs, rest) := by
            rw [← List.cons_append, ← hshape]
            exact pNum_natToChars _ _ hr
          rw [List.cons_append, pVal_digit n c0 (cs ++ rest) hd, hstep]
          simp only [Option.map_some']
          have hcast : (m.natAbs : Int) = m := by omega
          rw [hcast]
  | .str s, n + 1, rest => fun _ _ => by
      simp only [sV, sStr, List.cons_append, List.append_assoc, List.nil_append]
      rw [pVal_str, pStr_esc]
      rfl
  | .arr xs, n + 1, rest => fun h _ => by
      have hxs : jsizeE xs ≤ n := by simp only [jsizeV] at h; omega
      simp only [sV, List.cons_append, List.append_assoc, List.nil_append]
      rw [pVal_arr, rtE xs n rest hxs]
      rfl
  | .obj fs, n + 1, rest => fun h _ => by
      have hfs : jsizeF fs ≤ n := by simp only [jsizeV] at h; omega
      simp only [sV, List.cons_append, List.append_assoc, List.nil_append]
      rw [pVal_obj, rtF fs n rest hfs]
      rfl

/-- Parsing inverts element-list stringification. -/
theorem rtE : ∀ (xs : List Json) (n : Nat) (rest : List Char),
    jsizeE xs ≤ n → pElems n (sElems xs ++ ']' :: rest) = some (xs, rest)
  | xs, 0, _ => fun h => absurd h (by have := jsizeE_pos xs; omega)
  | [], n + 1, rest => fun _ => by
      simp only [sElems, List.nil_append]
      exact pElems_close n rest
  | [j], n + 1, rest => fun h => by
      have hj : jsizeV j ≤ n := by simp only [jsizeE] at h; omega
      obtain ⟨c, cs, hshape, hc1, _, _⟩ := sV_head j
      simp only [sElems]
      rw [hshape, List.cons_append, pElems_cons n c _ hc1, ← List.cons_append, ← hshape,
        rtV j n (']' :: rest) hj rfl]
      rfl
  | j :: t :: ts, n + 1, rest => fun h => by
      have hj : jsizeV j ≤ n := by
        have := jsizeE_pos (t :: ts); simp only [jsizeE] at h; omega
      have htl : jsizeE (t :: ts) ≤ n := by
        have := jsizeV_pos j; simp only [jsizeE] at h ⊢; omega
      obtain ⟨c, cs, hshape, hc1, _, _⟩ := sV_head j
      simp only [sElems, List.append_assoc, List.cons_append]
      rw [hshape, List.cons_append, pElems_cons n c _ hc1, ← List.cons_append, ← hshape,
        rtV j n (',' :: (sElems (t :: ts) ++ ']' :: rest)) hj rfl]
      show (pElems n (sElems (t :: ts) ++ ']' :: rest)).bind
        (fun q => some (j :: q.1, q.2)) = some (j :: t :: ts, rest)
      rw [rtE (t :: ts) n rest htl]
      rfl

/-- Parsing inverts field-list stringification. -/
theorem rtF : ∀ (fs : List (String × Json)) (n : Nat) (rest : List Char),
    jsizeF fs ≤ n → pFields n (sFields fs ++ '}' :: rest) = some (fs, rest)
  | fs, 0, _ => fun h => absurd h (by have := jsizeF_pos fs; omega)
  | [], n + 1, rest => fun _ => by
      simp only [sFields, List.nil_append]
      exact pFields_close n rest
  | [(k, v)], n + 1, rest => fun h => by
      have hv : jsizeV v ≤ n := by simp only [jsizeF] at h; omega
      simp only [sFields, sStr, List.cons_append, List.append_assoc, List.nil_append]
      rw [pFields_cons, pStr_esc]
      show (pVal n (sV v ++ '}' :: rest)).bind _ = _
      rw [rtV v n ('}' :: rest) hv rfl]
      rfl
  | (k, v) :: g :: gs, n + 1, rest => fun h => by
      have hv : jsizeV v ≤ n := by
        have := jsizeF_pos (g :: gs); simp only [jsizeF] at h; omega
      have htl : jsizeF (g :: gs) ≤ n := by
        have := jsizeV_pos v; simp only [jsizeF] at h ⊢; omega
      simp only [sFields, sStr, List.cons_append, List.append_assoc, List.nil_append]
      rw [pFields_cons, pStr_esc]
      show (pVal n (sV v ++ ',' :: (sFields (g :: gs) ++ '}' :: rest))).bind _ = _
      rw [rtV v n (',' :: (sFields (g :: gs) ++ '}' :: rest)) hv rfl]
      show (pFields n (sFields (g :: gs) ++ '}' :: rest)).bind _ = _
      rw [rtF (g :: gs) n rest htl]
      rfl

end

mutual

/-- The size bound used as parser fuel is dominated by the output length. -/
theorem jsizeV_le : ∀ j : Json, jsizeV j ≤ 2 * (sV j).length
  | .null => by simp [jsizeV, sV]
  | .bool b => by cases b <;> simp [jsizeV, sV]
  | .num m => by
      have : sV (.num m) ≠ [] := by
        simp only [sV, intToChars]
        split <;> simp [natToChars_ne_nil]
      have : 1 ≤ (sV (.num m)).length := by
        cases hc : sV (.num m) with
        | nil => exact absurd hc this
        | cons a l => simp
      simp only [jsizeV]
      omega
  | .str s => by simp [jsizeV, sV, sStr]; omega
  | .arr xs => by
      have := jsizeE_le xs
      simp only [jsizeV, sV, List.length_cons, List.length_append, List.length_singleton]
      omega
  | .obj fs => by
      have := jsizeF_le fs
      simp only [jsizeV, sV, List.length_cons, List.length_append, List.length_singleton]
      omega

theorem jsizeE_le : ∀ xs : List Json, jsizeE xs ≤ 2 * (sElems xs).length + 2
  | [] => by simp [jsizeE, sElems]
  | [j] => by
      have := jsizeV_le j
      simp only [jsizeE, sElems]
      omega
  | j :: t :: ts => by
      have h1 := jsizeV_le j
      have h2 := jsizeE_le (t :: ts)
      have e1 : jsizeE (j :: t :: ts) = jsizeV j + jsizeE (t :: ts) + 1 := by rw [jsizeE]
      have e2 : sElems (j :: t :: ts) = sV j ++ ',' :: sElems (t :: ts) := by
        rw [sElems]; simp
      rw [e1, e2]
      simp only [List.length_append, List.length_cons]
      omega

theorem jsizeF_le : ∀ fs : List (String × Json), jsizeF fs ≤ 2 * (sFields fs).length + 2
  | [] => by simp [jsizeF, sFields]
  | [(k, v)] => by
      have := jsizeV_le v
      simp only [jsizeF, sFields, List.length_append, List.length_cons]
      omega
  | (k, v) :: g :: gs => by
      have h1 := jsizeV_le v
      have h2 := jsizeF_le (g :: gs)
      have e1 : jsizeF ((k, v) :: g :: gs) = jsizeV v + jsizeF (g :: gs) + 1 := by rw [jsizeF]
      have e2 : sFields ((k, v) :: g :: gs) = sStr k ++ ':' :: sV v ++ ',' :: sFields (g :: gs) := by
        rw [sFields]; simp
      rw [e1, e2]
      simp only [List.length_append, List.length_cons]
      omega

end

/-- `JSON.parse` inverts `JSON.stringify`. -/
theorem jsonParse_stringify (j : Json) : jsonParse (Json.stringify j) = some j := by
  have hfuel : jsizeV j ≤ 2 * (sV j).length + 2 := le_trans (jsizeV_le j) (by omega)
  have hrt := rtV j (2 * (sV j).length + 2) [] hfuel rfl
  rw [List.append_nil] at hrt
  show (match pVal (2 * (sV j).length + 2) (sV j) with
    | some (v, []) => some v
    | _ => none) = some j
  rw [hrt]

/-! ## SHA-256

A complete SHA-256 over byte lists, modelling `crypto.subtle.digest('SHA-256', …)`
followed by the worker's lowercase-hex rendering
(`hashArray.map(b => b.toString(16).padStart(2, '0')).join('')`). -/

/-- Truncate to a 32-bit word. -/
def w32 (n : Nat) : Nat := n % 4294967296

/-- 32-bit right rotation. -/
def rotr (k x : Nat) : Nat := w32 ((x >>> k) ||| (x <<< (32 - k)))

def shaCh (x y z : Nat) : Nat := (x &&& y) ^^^ ((x ^^^ 4294967295) &&& z)

def shaMaj (x y z : Nat) : Nat := (x &&& y) ^^^ (x &&& z) ^^^ (y &&& z)

def bSig0 (x : Nat) : Nat := rotr 2 x ^^^ rotr 13 x ^^^ rotr 22 x

def bSig1 (x : Nat) : Nat := rotr 6 x ^^^ rotr 11 x ^^^ rotr 25 x

def sSig0 (x : Nat) : Nat := rotr 7 x ^^^ rotr 18 x ^^^ (x >>> 3)

def sSig1 (x : Nat) : Nat := rotr 17 x ^^^ rotr 19 x ^^^ (x >>> 10)

/-- The 64 SHA-256 round constants. -/
def shaK : List Nat :=
  [1116352408, 1899447441, 3049323471, 3921009573, 961987163, 1508970993,
   2453635748, 2870763221, 3624381080, 310598401, 607225278, 1426881987,
   1925078388, 2162078206, 2614888103, 3248222580, 3835390401, 4022224774,
   264347078, 604807628, 770255983, 1249150122, 1555081692, 1996064986,
   2554220882, 2821834349, 2952996808, 3210313671, 3336571891, 3584528711,
   113926993, 338241895, 666307205, 773529912, 1294757372, 1396182291,
   1695183700, 1986661051, 2177026350, 2456956037, 2730485921, 2820302411,
   3259730800, 3345764771, 3516065817, 3600352804, 4094571909, 275423344,
   430227734, 506948616, 659060556, 883997877, 958139571, 1322822218,
   1537002063, 1747873779, 1955562222, 2024104815, 2227730452, 2361852424,
   2428436474, 2756734187, 3204031479, 3329325298]

/-- The initial SHA-256 hash state. -/
def shaH0 : List Nat :=
  [1779033703, 3144134277, 1013904242, 2773480762,
   1359893119, 2600822924, 528734635, 1541459225]

/-- Big-endian bytes of `n`, `k` bytes wide. -/
def toBytesBE : Nat → Nat → List Nat
  | 0, _ => []
  | k + 1, n => toBytesBE k (n / 256) ++ [n % 256]

/-- Group bytes into big-endian 32-bit words. -/
def bytesToWords : List Nat → List Nat
  | b1 :: b2 :: b3 :: b4 :: rest => (((b1 * 256 + b2) * 256 + b3) * 256 + b4) :: bytesToWords rest
  | _ => []

/-- Split into 64-byte blocks (the fuel is an upper bound on the length). -/
def chunks : Nat → List Nat → List (List Nat)
  | 0, _ => []
  | _ + 1, [] => []
  | fuel + 1, l => l.take 64 :: chunks fuel (l.drop 64)

/-- SHA-256 message padding: `0x80`, zeros, then the 64-bit bit-length. -/
def padMsg (msg : List Nat) : List Nat :=
  let len := msg.length
  let padLen := (119 - len % 64) % 64
  msg ++ 128 :: List.replicate padLen 0 ++ toBytesBE 8 (8 * len)

/-- Extend the 16 block words to the 64-entry message schedule. -/
def extendW : Nat → List Nat → List Nat
  | 0, w => w
  | f + 1, w =>
    let t := w.length
    let nw := w32 (sSig1 (w.getD (t - 2) 0) + w.getD (t - 7) 0 +
      sSig0 (w.getD (t - 15) 0) + w.getD (t - 16) 0)
    extendW f (w ++ [nw])

/-- One compression round. -/
def shaRound (st : Nat × Nat × Nat × Nat × Nat × Nat × Nat × Nat) (kw wt : Nat) :
    Nat × Nat × Nat × Nat × Nat × Nat × Nat × Nat :=
  match st with
  | (a, b, c, d, e, f, g, h) =>
    let t1 := w32 (h + bSig1 e + shaCh e f g + kw + wt)
    let t2 := w32 (bSig0 a + shaMaj a b c)
    (w32 (t1 + t2), a, b, c, w32 (d + t1), e, f, g)

/-- Compress one 64-byte block into the hash state. -/
def shaCompress (hs : List Nat) (block : List Nat) : List Nat :=
  let w := extendW 48 (bytesToWords block)
  let init := (hs.getD 0 0, hs.getD 1 0, hs.getD 2 0, hs.getD 3 0,
    hs.getD 4 0, hs.getD 5 0, hs.getD 6 0, hs.getD 7 0)
  match (shaK.zip w).foldl (fun st p => shaRound st p.1 p.2) init with
  | (a, b, c, d, e, f, g, h) =>
    [w32 (hs.getD 0 0 + a), w32 (hs.getD 1 0 + b), w32 (hs.getD 2 0 + c),
     w32 (hs.getD 3 0 + d), w32 (hs.getD 4 0 + e), w32 (hs.getD 5 0 + f),
     w32 (hs.getD 6 0 + g), w32 (hs.getD 7 0 + h)]

/-- Two lowercase hex digits of a byte (`b.toString(16).padStart(2, '0')`). -/
def byteToHex (b : Nat) : List Char := [hexDig (b / 16 % 16), hexDig (b % 16)]

/-- SHA-256 digest of a byte list, rendered as 64 lowercase hex characters. -/
def sha256Hex (msg : List Nat) : String :=
  let padded := padMsg msg
  let hs := (chunks padded.length padded).foldl shaCompress shaH0
  ⟨((hs.map (toBytesBE 4)).flatten.map byteToHex).flatten⟩

/-- UTF-8 bytes of a character (`TextEncoder`). -/
def utf8Char (c : Char) : List Nat :=
  let n := c.toNat
  if n < 128 then [n]
  else if n < 2048 then [192 + n / 64, 128 + n % 64]
  else if n < 65536 then [224 + n / 4096, 128 + n / 64 % 64, 128 + n % 64]
  else [240 + n / 262144, 128 + n / 4096 % 64, 128 + n / 64 % 64, 128 + n % 64]

/-- UTF-8 encoding of a string (`new TextEncoder().encode(...)`). -/
def utf8Encode (s : String) : List Nat := (s.data.map utf8Char).flatten

/-- `hashQuizData`: SHA-256 hex digest of `JSON.stringify(quizData)`. -/
def hashQuizData (quizData : Json) : String :=
  sha256Hex (utf8Encode (Json.stringify quizData))

/-- `hashString`: SHA-256 hex digest of a string. -/
def hashString (s : String) : String := sha256Hex (utf8Encode s)

/-! ## JS value helpers -/

/-- JS optional property access `v?.key`: only objects carry the worker's
fields; anything else yields `undefined` (`none`). -/
def jsonGet : Json → String → Option Json
  | .obj fs, k => (fs.find? (fun f => f.1 == k)).map (fun f => f.2)
  | _, _ => none

/-- JS truthiness of a JSON value. -/
def Json.truthy : Json → Bool
  | .null => false
  | .bool b => b
  | .num n => decide (n ≠ 0)
  | .str s => decide (s ≠ "")
  | .arr _ => true
  | .obj _ => true

/-- Truthiness of a possibly-undefined value (`none` models `undefined`). -/
def truthyOpt : Option Json → Bool
  | none => false
  | some j => j.truthy

/-- The JSON `null` value.  Plain JS property access (`body.quiz_data`) and
destructuring (`const {question} = body`) throw a TypeError on `null`,
unlike the optional access modelled by `jsonGet`. -/
def Json.isNull : Json → Bool
  | .null => true
  | _ => false

mutual

/-- JS `String(v)` coercion as used by string concatenation. -/
def jsToString : Json → String
  | .null => "null"
  | .bool true => "true"
  | .bool false => "false"
  | .num n => ⟨intToChars n⟩
  | .str s => s
  | .arr xs => ⟨jsToStringList xs⟩
  | .obj _ => "[object Object]"

/-- JS array-to-string: elements joined by commas; `Array.prototype.join`
renders a `null` element as the empty string. -/
def jsToStringList : List Json → List Char
  | [] => []
  | [.null] => []
  | [j] => (jsToString j).data
  | .null :: tl => ',' :: jsToStringList tl
  | j :: tl => (jsToString j).data ++ ',' :: jsToStringList tl

end

/-- JS whitespace, for `trim`. -/
def jsWS (c : Char) : Bool :=
  c = ' ' || c = Char.ofNat 9 || c = Char.ofNat 10 || c = Char.ofNat 11 ||
  c = Char.ofNat 12 || c = Char.ofNat 13

/-- JS `String.prototype.trim`. -/
def jsTrim (s : String) : String :=
  ⟨((s.data.dropWhile jsWS).reverse.dropWhile jsWS).reverse⟩

/-- JS `parseInt` in base 10 on the strings this worker stores; `none`
models `NaN`. -/
def jsParseInt (s : String) : Option Int :=
  match s.data.dropWhile jsWS with
  | '-' :: rest => (pNum rest).map (fun p => -(p.1 : Int))
  | '+' :: rest => (pNum rest).map (fun p => (p.1 : Int))
  | cs => (pNum cs).map (fun p => (p.1 : Int))

/-! ## The KV stores and the worker environment -/

/-- One stored KV entry with its absolute expiration time (seconds). -/
structure KVEntry where
  key : String
  value : String
  expiresAt : Nat

/-- A Cloudflare KV namespace. -/
abbrev KVStore := List KVEntry

/-- `kv.get(key)` at time `now`: the live value stored under `key`. -/
def kvGet (kv : KVStore) (now : Nat) (k : String) : Option String :=
  match kv.find? (fun e => e.key == k) with
  | some e => if now < e.expiresAt then some e.value else none
  | none => none

/-- `kv.put(key, value, {expirationTtl: ttl})` at time `now`; replaces any
previous entry under the same key. -/
def kvPut (kv : KVStore) (now : Nat) (k v : String) (ttl : Nat) : KVStore :=
  ⟨k, v, now + ttl⟩ :: kv.filter (fun e => e.key != k)

/-- The worker environment: its two KV namespace bindings. -/
structure WorkerState where
  roadmapCache : KVStore
  rateLimit : KVStore

/-! ## Rate limiting -/

/-- The rate-limit key for a client identity. -/
def rlKey (clientIP : String) : String := "ratelimit:" ++ clientIP

/-- `checkRateLimit`: true when the stored counter has reached 10 per hour. -/
def checkRateLimit (kv : KVStore) (now : Nat) (clientIP : String) : Bool :=
  match kvGet kv now (rlKey clientIP) with
  | none => false
  | some current =>
    if current = "" then false
    else
      match jsParseInt current with
      | none => false
      | some count => decide (10 ≤ count)

/-- `incrementRateLimit`: read, add one (starting at 1), store back with a
one-hour TTL. -/
def incrementRateLimit (kv : KVStore) (now : Nat) (clientIP : String) : KVStore :=
  let countStr :=
    match kvGet kv now (rlKey clientIP) with
    | none => "1"
    | some current =>
      if current = "" then "1"
      else
        match jsParseInt current with
        | none => "NaN"
        | some count => (⟨intToChars (count + 1)⟩ : String)
  kvPut kv now (rlKey clientIP) countStr 3600

/-! ## Responses -/

/-- An HTTP response body. -/
inductive Body where
  | empty
  | text (s : String)
  | json (j : Json)

/-- An HTTP response. -/
structure Response where
  status : Nat
  headers : List (String × String)
  body : Body

/-- `corsHeaders(additional)`: the three CORS headers plus extras. -/
def corsHeaders (additional : List (String × String)) : List (String × String) :=
  [("Access-Control-Allow-Origin", "*"),
   ("Access-Control-Allow-Methods", "GET, POST, OPTIONS"),
   ("Access-Control-Allow-Headers", "Content-Type")] ++ additional

/-- The JSON content-type header. -/
def jsonCT : List (String × String) := [("Content-Type", "application/json")]

/-- A `{success: false, error: msg}` body. -/
def errBody (msg : String) : Json := .obj [("success", .bool false), ("error", .str msg)]

def rateLimitedResponse : Response :=
  ⟨429, corsHeaders jsonCT, .json (errBody "Rate limit exceeded. Please try again later.")⟩

def invalidQuizResponse : Response :=
  ⟨400, corsHeaders jsonCT, .json (errBody "Invalid quiz data")⟩

def agentFailureResponse : Response :=
  ⟨500, corsHeaders jsonCT, .json (errBody "Failed to generate roadmap. Please try again.")⟩

def internalErrorResponse : Response :=
  ⟨500, corsHeaders jsonCT, .json (errBody "Internal server error")⟩

def planSuccessResponse (roadmap : Json) (cached : Bool) : Response :=
  ⟨200, corsHeaders jsonCT,
    .json (.obj [("success", .bool true), ("roadmap", roadmap), ("cached", .bool cached)])⟩

def questionRequiredResponse : Response :=
  ⟨400, corsHeaders jsonCT, .json (errBody "Question is required")⟩

def chatFailureResponse : Response :=
  ⟨500, corsHeaders jsonCT, .json (errBody "Failed to generate response")⟩

/-- The CORS preflight response: 204, no body. -/
def handleCORS : Response := ⟨204, corsHeaders [], .empty⟩

/-- The `/health` response (note: built without `corsHeaders`). -/
def healthResponse : Response :=
  ⟨200, jsonCT, .json (.obj [("status", .str "healthy"), ("version", .str "1.0.0")])⟩

/-- The fallback 404 (a plain-text `Response` with default headers). -/
def notFoundResponse : Response := ⟨404, [], .text "Not Found"⟩

/-- The static career catalog served by `handleCareersRequest`. -/
def careersResponse : Response :=
  ⟨200, corsHeaders jsonCT, .json (.obj [("careers", .arr [
    .obj [("name", .str "Mechanical Engineer"), ("category", .str "STEM-Engineering"),
      ("icon", .str "⚙️")],
    .obj [("name", .str "Electrical Engineer"), ("category", .str "STEM-Engineering"),
      ("icon", .str "⚡")],
    .obj [("name", .str "Civil Engineer"), ("category", .str "STEM-Engineering"),
      ("icon", .str "🏗️")],
    .obj [("name", .str "Software Developer"), ("category", .str "STEM-Technology"),
      ("icon", .str "💻")],
    .obj [("name", .str "Registered Nurse"), ("category", .str "Healthcare"),
      ("icon", .str "🏥")],
    .obj [("name", .str "Architect"), ("category", .str "STEM-Architecture"),
      ("icon", .str "🏛️")],
    .obj [("name", .str "Accountant"), ("category", .str "Business"),
      ("icon", .str "💼")],
    .obj [("name", .str "Data Scientist"), ("category", .str "STEM-Technology"),
      ("icon", .str "📊")]])])⟩

/-! ## The plan handler -/

/-- Outcome of the `fetch` to the Python agent service, as observed by the
worker: a thrown network error, or a response with its `ok` flag and the
`roadmap` field of its parsed JSON body (the collaborator contract answers
`{roadmap: document}`). -/
inductive UpstreamResult where
  | err
  | resp (ok : Bool) (roadmap : Json)

/-- Outcome of the `fetch` to the backend chatbot endpoint: a thrown
network error, or a response with its `ok` flag and parsed JSON body. -/
inductive BackendResult where
  | err
  | resp (ok : Bool) (body : Json)

/-- The plan cache key: `roadmap:` followed by `hashQuizData`. -/
def planCacheKey (quizData : Json) : String := "roadmap:" ++ hashQuizData quizData

/-- Result of the typed read `ROADMAP_CACHE.get(cacheKey, 'json')` combined
with the `if (cached)` test: `corrupt` models the throw on a stored value
that is not valid JSON, and a parsed falsy value falls through to the miss
path. -/
inductive CacheRead where
  | hit (j : Json)
  | miss
  | corrupt

/-- The plan cache lookup. -/
def cacheReadJson (kv : KVStore) (now : Nat) (k : String) : CacheRead :=
  match kvGet kv now k with
  | none => .miss
  | some s =>
    match jsonParse s with
    | none => .corrupt
    | some j => if j.truthy then .hit j else .miss

/-- What `handlePlanRequest` reads from the incoming request: the
`CF-Connecting-IP` header, the parsed JSON body (`none` when
`request.json()` throws), and the current time. -/
structure PlanCtx where
  clientIPHeader : Option String
  body : Option Json
  now : Nat

/-- A handler outcome: the response, the updated environment, and whether
the upstream collaborator was invoked while handling this request. -/
structure Outcome where
  resp : Response
  state : WorkerState
  pipelineCalled : Bool

/-- `handlePlanRequest`.  Order follows the source: rate check, body parse,
validation, fingerprint, cache lookup, pipeline call, cache write plus
counter increment.  The plain access `body.quiz_data` throws a TypeError
when the parsed body is `null` (catch block, 500); on any other non-object
body it yields `undefined`, and a missing `quiz_data` field makes
`quizData?.career` `undefined`, hence falsy, hence the 400 branch. -/
def handlePlanRequest (pipeline : Json → UpstreamResult) (ctx : PlanCtx)
    (st : WorkerState) : Outcome :=
  let clientIP := ctx.clientIPHeader.getD "unknown"
  if checkRateLimit st.rateLimit ctx.now clientIP then
    ⟨rateLimitedResponse, st, false⟩
  else
    match ctx.body with
    | none => ⟨internalErrorResponse, st, false⟩
    | some body =>
      if body.isNull then ⟨internalErrorResponse, st, false⟩
      else
      match jsonGet body "quiz_data" with
      | none => ⟨invalidQuizResponse, st, false⟩
      | some quizData =>
        if !truthyOpt (jsonGet quizData "career") || !truthyOpt (jsonGet quizData "budget") then
          ⟨invalidQuizResponse, st, false⟩
        else
          let cacheKey := planCacheKey quizData
          match cacheReadJson st.roadmapCache ctx.now cacheKey with
          | .corrupt => ⟨internalErrorResponse, st, false⟩
          | .hit cached => ⟨planSuccessResponse cached true, st, false⟩
          | .miss =>
            match pipeline quizData with
            | .err => ⟨internalErrorResponse, st, true⟩
            | .resp false _ => ⟨agentFailureResponse, st, true⟩
            | .resp true roadmap =>
              ⟨planSuccessResponse roadmap false,
               ⟨kvPut st.roadmapCache ctx.now cacheKey (Json.stringify roadmap) 604800,
                incrementRateLimit st.rateLimit ctx.now clientIP⟩,
               true⟩

/-! ## The chatbot handler -/

/-- What `handleChatbotRequest` reads from the incoming request. -/
structure ChatCtx where
  body : Option Json
  now : Nat

/-- `v || ''` followed by JS string coercion, as in the chat cache key. -/
def jsCoerceStr (v : Option Json) : String :=
  match v with
  | none => ""
  | some j => if j.truthy then jsToString j else ""

/-- The chat cache key: `chatbot:` followed by the hash of question plus
career and path context. -/
def chatCacheKey (question : String) (career path : Option Json) : String :=
  "chatbot:" ++ hashString (question ++ jsCoerceStr career ++ jsCoerceStr path)

/-- An optional object field; `JSON.stringify` drops `undefined` fields. -/
def optField (k : String) (v : Option Json) : List (String × Json) :=
  match v with
  | none => []
  | some j => [(k, j)]

/-- The `{success: true, answer, cached}` body. -/
def chatSuccessBody (ans : Option Json) (cached : Bool) : Json :=
  .obj ([("success", .bool true)] ++ optField "answer" ans ++ [("cached", .bool cached)])

/-- The cache-miss continuation of the chatbot handler: call the backend,
extract `data.answer || data.response`, cache it for an hour, respond.
`KV.put` accepts only strings, so a non-string extracted answer (or a
missing one) leaves the store unchanged (the background write fails). -/
def chatbotMiss (backend : Json → BackendResult) (ctx : ChatCtx) (st : WorkerState)
    (question : String) (career path : Option Json) (cacheKey : String) : Outcome :=
  let payload := Json.obj (("question", Json.str question) ::
    optField "career" career ++ optField "path" path)
  match backend payload with
  | .err => ⟨internalErrorResponse, st, true⟩
  | .resp false _ => ⟨chatFailureResponse, st, true⟩
  | .resp true data =>
    let ans : Option Json :=
      if truthyOpt (jsonGet data "answer") then jsonGet data "answer"
      else jsonGet data "response"
    let cache2 :=
      match ans with
      | some (.str s) => kvPut st.roadmapCache ctx.now cacheKey s 3600
      | _ => st.roadmapCache
    ⟨⟨200, corsHeaders jsonCT, .json (chatSuccessBody ans false)⟩, ⟨cache2, st.rateLimit⟩, true⟩

/-- `handleChatbotRequest`: validate the question, check the chat cache
(an empty cached string is falsy and falls through to the miss path), else
call the backend.  Destructuring `const {question, career, path} = body`
throws a TypeError on a parsed `null` body (catch block, 500), and a
truthy non-string question makes `question.trim()` throw there too. -/
def handleChatbotRequest (backend : Json → BackendResult) (ctx : ChatCtx)
    (st : WorkerState) : Outcome :=
  match ctx.body with
  | none => ⟨internalErrorResponse, st, false⟩
  | some body =>
    if body.isNull then ⟨internalErrorResponse, st, false⟩
    else
    match jsonGet body "question" with
    | none => ⟨questionRequiredResponse, st, false⟩
    | some qj =>
      if !qj.truthy then ⟨questionRequiredResponse, st, false⟩
      else
        match qj with
        | .str q =>
          if (jsTrim q).length = 0 then ⟨questionRequiredResponse, st, false⟩
          else
            let career := jsonGet body "career"
            let path := jsonGet body "path"
            let cacheKey := chatCacheKey q career path
            match kvGet st.roadmapCache ctx.now cacheKey with
            | some cached =>
              if cached = "" then chatbotMiss backend ctx st q career path cacheKey
              else
                ⟨⟨200, corsHeaders jsonCT, .json (chatSuccessBody (some (.str cached)) true)⟩,
                 st, false⟩
            | none => chatbotMiss backend ctx st q career path cacheKey
        | _ => ⟨internalErrorResponse, st, false⟩

/-! ## The fetch router -/

/-- An incoming HTTP request as the router sees it. -/
structure HttpRequest where
  method : String
  path : String
  clientIPHeader : Option String
  body : Option Json
  now : Nat

/-- The worker's exported `fetch` handler: CORS preflight, the four routes,
and the 404 fallback. -/
def workerFetch (pipeline : Json → UpstreamResult) (backend : Json → BackendResult)
    (req : HttpRequest) (st : WorkerState) : Outcome :=
  if req.method = "OPTIONS" then ⟨handleCORS, st, false⟩
  else if req.method = "POST" ∧ req.path = "/api/plan" then
    handlePlanRequest pipeline ⟨req.clientIPHeader, req.body, req.now⟩ st
  else if req.method = "POST" ∧ req.path = "/api/chatbot" then
    handleChatbotRequest backend ⟨req.body, req.now⟩ st
  else if req.method = "GET" ∧ req.path = "/api/careers" then ⟨careersResponse, st, false⟩
  else if req.method = "GET" ∧ req.path = "/health" then ⟨healthResponse, st, false⟩
  else ⟨notFoundResponse, st, false⟩

/-! ## Helper notions for the verification -/

/-- A response carries the three CORS headers with the worker's values. -/
def hasCors (r : Response) : Bool :=
  r.headers.contains ("Access-Control-Allow-Origin", "*") &&
  r.headers.contains ("Access-Control-Allow-Methods", "GET, POST, OPTIONS") &&
  r.headers.contains ("Access-Control-Allow-Headers", "Content-Type")

/-- A stub collaborator whose calls always fail with a network error. -/
def stubPipeline : Json → UpstreamResult := fun _ => .err

/-- A stub chat backend whose calls always fail with a network error. -/
def stubBackend : Json → BackendResult := fun _ => .err

/-- A collaborator that always succeeds with a fixed roadmap. -/
def okPipeline (r : Json) : Json → UpstreamResult := fun _ => .resp true r

/-- A plan body is valid when `quiz_data` is present with truthy `career`
and `budget` fields. -/
def validQuizBody (body : Json) : Bool :=
  match jsonGet body "quiz_data" with
  | none => false
  | some q => truthyOpt (jsonGet q "career") && truthyOpt (jsonGet q "budget")

/-- A value with a readable field is an object, hence not `null`. -/
theorem isNull_false_of_jsonGet {b : Json} {k : String} {v : Json}
    (h : jsonGet b k = some v) : b.isNull = false := by
  cases b <;> first | rfl | exact absurd h (by simp [jsonGet])

/-- A rate-limited plan request is answered immediately: constant 429
response, untouched stores, no pipeline call. -/
theorem ratelimited_shortcircuit (pipeline : Json → UpstreamResult) (ctx : PlanCtx)
    (st : WorkerState)
    (h : checkRateLimit st.rateLimit ctx.now (ctx.clientIPHeader.getD "unknown") = true) :
    handlePlanRequest pipeline ctx st = ⟨rateLimitedResponse, st, false⟩ := by
  unfold handlePlanRequest
  simp [h]

/-! ## C8 — the health route -/

/-- C8: every `GET /health` request returns the constant 200 response with
body `{status: "healthy", version: "1.0.0"}`, leaves both stores exactly as
they were, and makes no collaborator call — for every pipeline, backend and
state. -/
theorem health_route_ok (pipeline : Json → UpstreamResult) (backend : Json → BackendResult)
    (req : HttpRequest) (st : WorkerState)
    (hm : req.method = "GET") (hp : req.path = "/health") :
    workerFetch pipeline backend req st = ⟨healthResponse, st, false⟩ ∧
    healthResponse.status = 200 ∧
    healthResponse.body = .json (.obj [("status", .str "healthy"), ("version", .str "1.0.0")]) := by
  refine ⟨?_, rfl, rfl⟩
  unfold workerFetch
  simp [hm, hp]

/-- Witness for C8 at a concrete request. -/
theorem health_route_ok_witness :
    workerFetch stubPipeline stubBackend ⟨"GET", "/health", none, none, 7⟩ ⟨[], []⟩
      = ⟨healthResponse, ⟨[], []⟩, false⟩ :=
  (health_route_ok stubPipeline stubBackend ⟨"GET", "/health", none, none, 7⟩ ⟨[], []⟩
    rfl rfl).1

/-! ## C9 — the CORS preflight -/

/-- C9: every `OPTIONS` request, on any path, gets the constant 204
response with no body and the three CORS headers, leaves the stores exactly
as they were, and makes no collaborator call. -/
theorem preflight_ok (pipeline : Json → UpstreamResult) (backend : Json → BackendResult)
    (req : HttpRequest) (st : WorkerState) (hm : req.method = "OPTIONS") :
    workerFetch pipeline backend req st = ⟨handleCORS, st, false⟩ ∧
    handleCORS.status = 204 ∧ handleCORS.body = .empty ∧ hasCors handleCORS = true := by
  refine ⟨?_, rfl, rfl, by decide⟩
  unfold workerFetch
  simp [hm]

/-- Witness for C9 at a concrete request. -/
theorem preflight_ok_witness :
    workerFetch stubPipeline stubBackend ⟨"OPTIONS", "/anything", none, none, 3⟩ ⟨[], []⟩
      = ⟨handleCORS, ⟨[], []⟩, false⟩ :=
  (preflight_ok stubPipeline stubBackend ⟨"OPTIONS", "/anything", none, none, 3⟩ ⟨[], []⟩
    rfl).1

/-! ## C10 — rate check precedes parsing and validation -/

/-- C10: when the client's counter has reached the ceiling, the plan
handler answers 429 for every body — including `none`, which models a body
that is not valid JSON — without touching either store or the pipeline. -/
theorem rate_check_precedes_validation (pipeline : Json → UpstreamResult) (ctx : PlanCtx)
    (st : WorkerState)
    (h : checkRateLimit st.rateLimit ctx.now (ctx.clientIPHeader.getD "unknown") = true) :
    handlePlanRequest pipeline ctx st = ⟨rateLimitedResponse, st, false⟩ ∧
    rateLimitedResponse.status = 429 :=
  ⟨ratelimited_shortcircuit pipeline ctx st h, rfl⟩

/-- Witness for C10: a client at the ceiling with an invalid-JSON body
still gets the 429 outcome. -/
theorem rate_check_precedes_validation_witness :
    handlePlanRequest stubPipeline ⟨some "9.8.7.6", none, 10⟩
        ⟨[], [⟨rlKey "9.8.7.6", "10", 1000⟩]⟩
      = ⟨rateLimitedResponse, ⟨[], [⟨rlKey "9.8.7.6", "10", 1000⟩]⟩, false⟩ :=
  (rate_check_precedes_validation stubPipeline ⟨some "9.8.7.6", none, 10⟩
    ⟨[], [⟨rlKey "9.8.7.6", "10", 1000⟩]⟩ (by decide)).1

/-! ## C7 — the fingerprint is a deterministic function of the content -/

/-- C7: two quiz payloads with the same JSON serialization get the same
SHA-256 fingerprint and hence the same cache key. -/
theorem fingerprint_deterministic (q1 q2 : Json)
    (h : Json.stringify q1 = Json.stringify q2) :
    hashQuizData q1 = hashQuizData q2 ∧ planCacheKey q1 = planCacheKey q2 := by
  have hh : hashQuizData q1 = hashQuizData q2 := by
    unfold hashQuizData
    rw [h]
  exact ⟨hh, by unfold planCacheKey; rw [hh]⟩

/-- Witness for C7 at a concrete quiz payload. -/
theorem fingerprint_deterministic_witness :
    hashQuizData (Json.obj [("career", Json.str "Architect"), ("budget", Json.str "low")])
      = hashQuizData (Json.obj [("career", Json.str "Architect"), ("budget", Json.str "low")]) ∧
    planCacheKey (Json.obj [("career", Json.str "Architect"), ("budget", Json.str "low")])
      = planCacheKey (Json.obj [("career", Json.str "Architect"), ("budget", Json.str "low")]) :=
  fingerprint_deterministic _ _ rfl

/-! ## C3 — input validation (corrected) -/

/-- Counterexample to C3 as stated: a body that is not valid JSON makes
`request.json()` throw, so the catch block answers 500 — not the claimed
400 — though the pipeline is indeed never invoked. -/
theorem plan_invalid_json_500_cex :
    (handlePlanRequest stubPipeline ⟨some "1.2.3.4", none, 0⟩ ⟨[], []⟩).resp.status = 500 ∧
    ¬ (handlePlanRequest stubPipeline ⟨some "1.2.3.4", none, 0⟩ ⟨[], []⟩).resp.status = 400 ∧
    (handlePlanRequest stubPipeline ⟨some "1.2.3.4", none, 0⟩ ⟨[], []⟩).pipelineCalled = false := by
  refine ⟨rfl, by decide, rfl⟩

/-- C3 amended: for a client below the rate-limit ceiling, a body that is
not valid JSON yields the 500 internal-error response (`request.json()`
throws), as does the parsed body `null` (the plain access `body.quiz_data`
throws a TypeError into the catch block); any other parsed body without
truthy `career` and `budget` yields the 400 response; all carry a
structured `{success: false, error}` body, and the pipeline is never
invoked in any of these cases. -/
theorem plan_validation_amended (pipeline : Json → UpstreamResult) (ctx : PlanCtx)
    (st : WorkerState)
    (hrl : checkRateLimit st.rateLimit ctx.now (ctx.clientIPHeader.getD "unknown") = false) :
    (ctx.body = none → handlePlanRequest pipeline ctx st = ⟨internalErrorResponse, st, false⟩) ∧
    (ctx.body = some .null →
      handlePlanRequest pipeline ctx st = ⟨internalErrorResponse, st, false⟩) ∧
    (∀ b, ctx.body = some b → b.isNull = false → validQuizBody b = false →
      handlePlanRequest pipeline ctx st = ⟨invalidQuizResponse, st, false⟩) ∧
    internalErrorResponse.status = 500 ∧ invalidQuizResponse.status = 400 ∧
    internalErrorResponse.body = .json (errBody "Internal server error") ∧
    invalidQuizResponse.body = .json (errBody "Invalid quiz data") := by
  refine ⟨?_, ?_, ?_, rfl, rfl, rfl, rfl⟩
  · intro h
    unfold handlePlanRequest
    simp [hrl, h]
  · intro h
    unfold handlePlanRequest
    simp [hrl, h, Json.isNull]
  · intro b hb hnn hv
    unfold handlePlanRequest
    unfold validQuizBody at hv
    rcases hq : jsonGet b "quiz_data" with _ | q
    · simp [hrl, hb, hnn, hq]
    · rw [hq] at hv
      simp only [Bool.and_eq_false_iff] at hv
      rcases hv with hv | hv <;> simp [hrl, hb, hnn, hq, hv]

/-- Witness for the amended C3: an invalid-JSON body, a parsed `null` body
and a parsed body missing `budget` all short-circuit. -/
theorem plan_validation_amended_witness :
    handlePlanRequest stubPipeline ⟨some "2.2.2.2", none, 4⟩ ⟨[], []⟩
      = ⟨internalErrorResponse, ⟨[], []⟩, false⟩ ∧
    handlePlanRequest stubPipeline ⟨some "2.2.2.2", some .null, 4⟩ ⟨[], []⟩
      = ⟨internalErrorResponse, ⟨[], []⟩, false⟩ ∧
    handlePlanRequest stubPipeline
        ⟨some "2.2.2.2", some (.obj [("quiz_data", .obj [("career", .str "Nurse")])]), 4⟩ ⟨[], []⟩
      = ⟨invalidQuizResponse, ⟨[], []⟩, false⟩ :=
  ⟨(plan_validation_amended stubPipeline ⟨some "2.2.2.2", none, 4⟩ ⟨[], []⟩ (by decide)).1 rfl,
   (plan_validation_amended stubPipeline ⟨some "2.2.2.2", some .null, 4⟩ ⟨[], []⟩
      (by decide)).2.1 rfl,
   (plan_validation_amended stubPipeline
      ⟨some "2.2.2.2", some (.obj [("quiz_data", .obj [("career", .str "Nurse")])]), 4⟩ ⟨[], []⟩
      (by decide)).2.2.1 _ rfl rfl (by decide)⟩

/-! ## C4 — collaborator failure leaves cache and counter untouched -/

/-- C4: when the request reaches the pipeline (valid body, below the
ceiling, cache miss) and the pipeline errors or answers non-success, the
handler responds 500 and returns the environment exactly as it was: no
cache write under the fingerprint and no counter increment. -/
theorem plan_upstream_failure_clean (pipeline : Json → UpstreamResult) (ctx : PlanCtx)
    (st : WorkerState) (b q : Json)
    (hrl : checkRateLimit st.rateLimit ctx.now (ctx.clientIPHeader.getD "unknown") = false)
    (hb : ctx.body = some b)
    (hq : jsonGet b "quiz_data" = some q)
    (hc : truthyOpt (jsonGet q "career") = true)
    (hbud : truthyOpt (jsonGet q "budget") = true)
    (hmiss : cacheReadJson st.roadmapCache ctx.now (planCacheKey q) = .miss)
    (hfail : pipeline q = .err ∨ ∃ r, pipeline q = .resp false r) :
    (handlePlanRequest pipeline ctx st).resp.status = 500 ∧
    (handlePlanRequest pipeline ctx st).state = st ∧
    (handlePlanRequest pipeline ctx st).pipelineCalled = true := by
  have hnn : b.isNull = false := isNull_false_of_jsonGet hq
  unfold handlePlanRequest
  rcases hfail with hf | ⟨r, hf⟩ <;> simp [hrl, hb, hnn, hq, hc, hbud, hmiss, hf] <;> rfl

/-- Witness for C4 with an erroring collaborator. -/
theorem plan_upstream_failure_clean_witness :
    (handlePlanRequest stubPipeline
      ⟨some "3.3.3.3",
       some (.obj [("quiz_data", .obj [("career", .str "Nurse"), ("budget", .str "low")])]),
       9⟩ ⟨[], []⟩).state = ⟨[], []⟩ :=
  (plan_upstream_failure_clean stubPipeline
    ⟨some "3.3.3.3",
     some (.obj [("quiz_data", .obj [("career", .str "Nurse"), ("budget", .str "low")])]), 9⟩
    ⟨[], []⟩ (.obj [("quiz_data", .obj [("career", .str "Nurse"), ("budget", .str "low")])])
    (.obj [("career", .str "Nurse"), ("budget", .str "low")])
    (by decide) rfl rfl (by decide) (by decide) rfl (Or.inl rfl)).2.1

/-! ## C5 — CORS coverage (corrected) -/

/-- Every response out of the plan handler carries the CORS headers. -/
theorem plan_resp_cors (pipeline : Json → UpstreamResult) (ctx : PlanCtx) (st : WorkerState) :
    hasCors (handlePlanRequest pipeline ctx st).resp = true := by
  unfold handlePlanRequest
  dsimp only []
  repeat' split <;> try rfl

/-- Every response out of the chatbot miss path carries the CORS headers. -/
theorem chatbotMiss_cors (backend : Json → BackendResult) (ctx : ChatCtx) (st : WorkerState)
    (q : String) (career path : Option Json) (k : String) :
    hasCors (chatbotMiss backend ctx st q career path k).resp = true := by
  unfold chatbotMiss
  dsimp only []
  repeat' split <;> try rfl

/-- Every response out of the chatbot handler carries the CORS headers. -/
theorem chat_resp_cors (backend : Json → BackendResult) (ctx : ChatCtx) (st : WorkerState) :
    hasCors (handleChatbotRequest backend ctx st).resp = true := by
  unfold handleChatbotRequest
  dsimp only []
  repeat' split <;> try rfl
  all_goals apply chatbotMiss_cors

/-- Counterexample to C5 as stated: the `/health` response and the 404
fallback are built without `corsHeaders`, so they carry none of the three
CORS headers. -/
theorem cors_missing_on_health_and_404_cex :
    hasCors (workerFetch stubPipeline stubBackend
      ⟨"GET", "/health", none, none, 0⟩ ⟨[], []⟩).resp = false ∧
    hasCors (workerFetch stubPipeline stubBackend
      ⟨"GET", "/missing", none, none, 0⟩ ⟨[], []⟩).resp = false := by
  decide

/-- C5 amended: the OPTIONS preflight and every response of the plan,
chatbot and careers routes carry the three CORS headers; the `/health`
response and the 404 fallback carry none of them. -/
theorem cors_coverage_amended (pipeline : Json → UpstreamResult)
    (backend : Json → BackendResult) (req : HttpRequest) (st : WorkerState) :
    (req.method = "OPTIONS" → hasCors (workerFetch pipeline backend req st).resp = true) ∧
    (req.method = "POST" → req.path = "/api/plan" →
      hasCors (workerFetch pipeline backend req st).resp = true) ∧
    (req.method = "POST" → req.path = "/api/chatbot" →
      hasCors (workerFetch pipeline backend req st).resp = true) ∧
    (req.method = "GET" → req.path = "/api/careers" →
      hasCors (workerFetch pipeline backend req st).resp = true) ∧
    (req.method = "GET" → req.path = "/health" →
      hasCors (workerFetch pipeline backend req st).resp = false) ∧
    (¬ req.method = "OPTIONS" → ¬ (req.method = "POST" ∧ req.path = "/api/plan") →
      ¬ (req.method = "POST" ∧ req.path = "/api/chatbot") →
      ¬ (req.method = "GET" ∧ req.path = "/api/careers") →
      ¬ (req.method = "GET" ∧ req.path = "/health") →
      hasCors (workerFetch pipeline backend req st).resp = false) := by
  refine ⟨?_, ?_, ?_, ?_, ?_, ?_⟩
  · intro h
    unfold workerFetch
    rw [if_pos h]
    rfl
  · intro h1 h2
    simp [workerFetch, h1, h2, plan_resp_cors]
  · intro h1 h2
    simp [workerFetch, h1, h2, chat_resp_cors]
  · intro h1 h2
    simp [workerFetch, h1, h2]
    decide
  · intro h1 h2
    simp [workerFetch, h1, h2]
    decide
  · intro h1 h2 h3 h4 h5
    unfold workerFetch
    rw [if_neg h1, if_neg h2, if_neg h3, if_neg h4, if_neg h5]
    rfl

/-- Witness for the amended C5: the preflight carries CORS headers, the
health response does not. -/
theorem cors_coverage_amended_witness :
    hasCors (workerFetch stubPipeline stubBackend
      ⟨"OPTIONS", "/api/plan", none, none, 2⟩ ⟨[], []⟩).resp = true ∧
    hasCors (workerFetch stubPipeline stubBackend
      ⟨"GET", "/health", none, none, 2⟩ ⟨[], []⟩).resp = false :=
  ⟨(cors_coverage_amended stubPipeline stubBackend
      ⟨"OPTIONS", "/api/plan", none, none, 2⟩ ⟨[], []⟩).1 rfl,
   (cors_coverage_amended stubPipeline stubBackend
      ⟨"GET", "/health", none, none, 2⟩ ⟨[], []⟩).2.2.2.2.1 rfl rfl⟩

/-! ## C6 — the chatbot route is never rate limited -/

/-- C6: the chatbot handler's response does not depend on the rate-limit
store (it never reads it), it returns the rate-limit store unchanged (it
never writes it), and its status is always 200, 400 or 500 — never 429. -/
theorem chatbot_no_rate_limit (backend : Json → BackendResult) (ctx : ChatCtx)
    (cache rl rl' : KVStore) :
    (handleChatbotRequest backend ctx ⟨cache, rl⟩).resp
      = (handleChatbotRequest backend ctx ⟨cache, rl'⟩).resp ∧
    (handleChatbotRequest backend ctx ⟨cache, rl⟩).state.rateLimit = rl ∧
    ((handleChatbotRequest backend ctx ⟨cache, rl⟩).resp.status = 200 ∨
     (handleChatbotRequest backend ctx ⟨cache, rl⟩).resp.status = 400 ∨
     (handleChatbotRequest backend ctx ⟨cache, rl⟩).resp.status = 500) ∧
    ¬ (handleChatbotRequest backend ctx ⟨cache, rl⟩).resp.status = 429 := by
  refine ⟨?_, ?_, ?_, ?_⟩ <;>
    (unfold handleChatbotRequest chatbotMiss
     dsimp only []
     repeat' split
     all_goals
       first
       | rfl
       | simp [internalErrorResponse, questionRequiredResponse, chatFailureResponse])

/-! ## KV lemmas -/

/-- Reading back the key just written. -/
theorem kvGet_put_same (kv : KVStore) (t t' : Nat) (k v : String) (ttl : Nat) :
    kvGet (kvPut kv t k v ttl) t' k = if t' < t + ttl then some v else none := by
  simp [kvGet, kvPut, List.find?]

/-- Filtering out another key does not change a lookup. -/
theorem find?_filter_ne (l : KVStore) (k k0 : String) (hne : ¬ k = k0) :
    (l.filter (fun e => e.key != k0)).find? (fun e => e.key == k)
      = l.find? (fun e => e.key == k) := by
  induction l with
  | nil => rfl
  | cons e tl ih =>
    by_cases hek : e.key = k
    · have hbek : (e.key == k) = true := by simp [hek]
      have hnk0 : ¬ e.key = k0 := by rw [hek]; exact hne
      have hk0 : (e.key != k0) = true := by simp [hnk0]
      rw [List.filter_cons, hk0, if_pos rfl]
      simp [List.find?_cons, hbek]
    · have hbek : (e.key == k) = false := beq_eq_false_iff_ne.mpr hek
      by_cases hek0 : e.key = k0
      · have hk0 : (e.key != k0) = false := by simp [hek0]
        rw [List.filter_cons, hk0, if_neg (by decide)]
        simp [List.find?_cons, hbek, ih]
      · have hk0 : (e.key != k0) = true := by simp [hek0]
        rw [List.filter_cons, hk0, if_pos rfl]
        simp [List.find?_cons, hbek, ih]

/-- Writing under a different key does not change a lookup. -/
theorem kvGet_put_other (kv : KVStore) (t t' : Nat) (k k0 v : String) (ttl : Nat)
    (hne : ¬ k = k0) :
    kvGet (kvPut kv t k0 v ttl) t' k = kvGet kv t' k := by
  have hk : (k0 == k) = false := by
    simp only [beq_eq_false_iff_ne, ne_eq]
    exact fun h => hne h.symm
  simp [kvGet, kvPut, List.find?, hk, find?_filter_ne kv k k0 hne]

/-! ## C1 — identical bodies are served from cache on the second call -/

/-- C1: a valid plan request that passes the rate check, misses the cache,
and succeeds upstream is answered `cached = false`; re-submitting the same
body within the 7-day retention window (and again below the ceiling) is
answered from the cache with the identical roadmap and `cached = true`,
and the pipeline is invoked only on the first call. -/
theorem plan_cache_idempotent_pair (pipeline : Json → UpstreamResult)
    (ctx1 ctx2 : PlanCtx) (st : WorkerState) (b q roadmap : Json)
    (hb1 : ctx1.body = some b) (hb2 : ctx2.body = some b)
    (hq : jsonGet b "quiz_data" = some q)
    (hc : truthyOpt (jsonGet q "career") = true)
    (hbud : truthyOpt (jsonGet q "budget") = true)
    (hrl1 : checkRateLimit st.rateLimit ctx1.now (ctx1.clientIPHeader.getD "unknown") = false)
    (hmiss : cacheReadJson st.roadmapCache ctx1.now (planCacheKey q) = .miss)
    (hp : pipeline q = .resp true roadmap)
    (hro : roadmap.truthy = true)
    (hrl2 : checkRateLimit (handlePlanRequest pipeline ctx1 st).state.rateLimit ctx2.now
      (ctx2.clientIPHeader.getD "unknown") = false)
    (hwin : ctx2.now < ctx1.now + 604800) :
    (handlePlanRequest pipeline ctx1 st).resp = planSuccessResponse roadmap false ∧
    (handlePlanRequest pipeline ctx1 st).pipelineCalled = true ∧
    (handlePlanRequest pipeline ctx2 (handlePlanRequest pipeline ctx1 st).state).resp
      = planSuccessResponse roadmap true ∧
    (handlePlanRequest pipeline ctx2 (handlePlanRequest pipeline ctx1 st).state).pipelineCalled
      = false := by
  have hnn : b.isNull = false := isNull_false_of_jsonGet hq
  have h1 : handlePlanRequest pipeline ctx1 st =
      ⟨planSuccessResponse roadmap false,
       ⟨kvPut st.roadmapCache ctx1.now (planCacheKey q) (Json.stringify roadmap) 604800,
        incrementRateLimit st.rateLimit ctx1.now (ctx1.clientIPHeader.getD "unknown")⟩,
       true⟩ := by
    unfold handlePlanRequest
    simp [hrl1, hb1, hnn, hq, hc, hbud, hmiss, hp]
  have hread : cacheReadJson
      (kvPut st.roadmapCache ctx1.now (planCacheKey q) (Json.stringify roadmap) 604800)
      ctx2.now (planCacheKey q) = .hit roadmap := by
    unfold cacheReadJson
    rw [kvGet_put_same, if_pos hwin]
    simp [jsonParse_stringify, hro]
  rw [h1] at hrl2
  have h2 : handlePlanRequest pipeline ctx2
      ⟨kvPut st.roadmapCache ctx1.now (planCacheKey q) (Json.stringify roadmap) 604800,
       incrementRateLimit st.rateLimit ctx1.now (ctx1.clientIPHeader.getD "unknown")⟩ =
      ⟨planSuccessResponse roadmap true,
       ⟨kvPut st.roadmapCache ctx1.now (planCacheKey q) (Json.stringify roadmap) 604800,
        incrementRateLimit st.rateLimit ctx1.now (ctx1.clientIPHeader.getD "unknown")⟩,
       false⟩ := by
    unfold handlePlanRequest
    simp only [] at hrl2
    simp [hrl2, hb2, hnn, hq, hc, hbud, hread]
  rw [h1, h2]
  exact ⟨rfl, rfl, rfl, rfl⟩

/-- The quiz payload used by the C1 witness. -/
def wQuiz : Json := .obj [("career", .str "Registered Nurse"), ("budget", .str "low")]

/-- The request body used by the C1 witness. -/
def wBody : Json := .obj [("quiz_data", wQuiz)]

/-- The roadmap document returned by the C1 witness pipeline. -/
def wRoadmap : Json := .obj [("nodes", .arr [.num 1, .num 2]), ("edges", .arr [])]

/-- Witness for C1 at a concrete request pair 100 seconds apart. -/
theorem plan_cache_idempotent_pair_witness :
    (handlePlanRequest (okPipeline wRoadmap) ⟨some "1.2.3.4", some wBody, 0⟩ ⟨[], []⟩).resp
      = planSuccessResponse wRoadmap false ∧
    (handlePlanRequest (okPipeline wRoadmap) ⟨some "1.2.3.4", some wBody, 100⟩
      (handlePlanRequest (okPipeline wRoadmap) ⟨some "1.2.3.4", some wBody, 0⟩ ⟨[], []⟩).state).resp
      = planSuccessResponse wRoadmap true ∧
    (handlePlanRequest (okPipeline wRoadmap) ⟨some "1.2.3.4", some wBody, 100⟩
      (handlePlanRequest (okPipeline wRoadmap) ⟨some "1.2.3.4", some wBody, 0⟩ ⟨[], []⟩).state).pipelineCalled
      = false := by
  have h := plan_cache_idempotent_pair (okPipeline wRoadmap)
    ⟨some "1.2.3.4", some wBody, 0⟩ ⟨some "1.2.3.4", some wBody, 100⟩ ⟨[], []⟩
    wBody wQuiz wRoadmap rfl rfl rfl rfl rfl rfl rfl rfl rfl (by decide) (by decide)
  exact ⟨h.1, h.2.2.1, h.2.2.2⟩

/-! ## C2 — the rate limiter bounds pipeline invocations -/

/-- The quiz payload of a plan request context. -/
def quizOf (c : PlanCtx) : Option Json := c.body.bind (fun b => jsonGet b "quiz_data")

/-- A context holding a valid plan request on which the pipeline succeeds. -/
def ValidPlanB (pipeline : Json → UpstreamResult) (c : PlanCtx) : Bool :=
  match quizOf c with
  | none => false
  | some q =>
    truthyOpt (jsonGet q "career") && truthyOpt (jsonGet q "budget") &&
      (match pipeline q with
       | .resp true _ => true
       | _ => false)

/-- The cache key a plan request will use (empty for an invalid one). -/
def keyOf (c : PlanCtx) : String :=
  match quizOf c with
  | some q => planCacheKey q
  | none => ""

/-- Process a list of plan requests in order, threading the environment. -/
def runPlans (pipeline : Json → UpstreamResult) :
    List PlanCtx → WorkerState → List Outcome × WorkerState
  | [], st => ([], st)
  | c :: tl, st =>
    let o := handlePlanRequest pipeline c st
    let p := runPlans pipeline tl o.state
    (o :: p.1, p.2)

/-- The rate-limit store invariant: after `k` accepted requests inside the
window starting at `t0`, the client's counter holds `k` (absent when
`k = 0`) and expires no earlier than the window end. -/
def RLInv (kv : KVStore) (ip : String) (k : Nat) (t0 : Nat) : Prop :=
  (k = 0 ∧ kv.find? (fun e => e.key == rlKey ip) = none) ∨
  (∃ exp, t0 + 3600 ≤ exp ∧
    kv.find? (fun e => e.key == rlKey ip) = some ⟨rlKey ip, ⟨intToChars (k : Int)⟩, exp⟩)

/-- Below the ceiling, the rate check passes. -/
theorem rl_check_lt {kv : KVStore} {ip : String} {k t0 now : Nat}
    (hinv : RLInv kv ip k t0) (hk : k ≤ 9) (hnow : now < t0 + 3600) :
    checkRateLimit kv now ip = false := by
  rcases hinv with ⟨hk0, hfind⟩ | ⟨exp, hexp, hfind⟩
  · unfold checkRateLimit kvGet
    rw [hfind]
  · have hget : kvGet kv now (rlKey ip) = some (⟨intToChars (k : Int)⟩ : String) := by
      unfold kvGet
      rw [hfind]
      dsimp only []
      rw [if_pos (show now < exp by omega)]
    unfold checkRateLimit
    rw [hget]
    interval_cases k <;> decide

/-- At the ceiling, the rate check rejects. -/
theorem rl_check_ge {kv : KVStore} {ip : String} {t0 now : Nat}
    (hinv : RLInv kv ip 10 t0) (hnow : now < t0 + 3600) :
    checkRateLimit kv now ip = true := by
  rcases hinv with ⟨hk0, _⟩ | ⟨exp, hexp, hfind⟩
  · omega
  · have hget : kvGet kv now (rlKey ip) = some (⟨intToChars ((10 : Nat) : Int)⟩ : String) := by
      unfold kvGet
      rw [hfind]
      dsimp only []
      rw [if_pos (show now < exp by omega)]
    unfold checkRateLimit
    rw [hget]
    decide

/-- The lookup after a put under the same key. -/
theorem find?_kvPut_self (kv : KVStore) (t : Nat) (k v : String) (ttl : Nat) :
    (kvPut kv t k v ttl).find? (fun e => e.key == k) = some ⟨k, v, t + ttl⟩ := by
  simp [kvPut, List.find?_cons]

/-- Incrementing below the ceiling steps the invariant. -/
theorem rl_increment {kv : KVStore} {ip : String} {k t0 now : Nat}
    (hinv : RLInv kv ip k t0) (hk : k ≤ 9) (ht0 : t0 ≤ now) (hnow : now < t0 + 3600) :
    RLInv (incrementRateLimit kv now ip) ip (k + 1) t0 := by
  right
  refine ⟨now + 3600, by omega, ?_⟩
  rcases hinv with ⟨hk0, hfind⟩ | ⟨exp, hexp, hfind⟩
  · subst hk0
    have hget : kvGet kv now (rlKey ip) = none := by
      unfold kvGet
      rw [hfind]
    unfold incrementRateLimit
    rw [hget]
    dsimp only []
    rw [find?_kvPut_self]
    simp only [Option.some.injEq, KVEntry.mk.injEq, true_and, and_true]
    decide
  · have hget : kvGet kv now (rlKey ip) = some (⟨intToChars (k : Int)⟩ : String) := by
      unfold kvGet
      rw [hfind]
      dsimp only []
      rw [if_pos (show now < exp by omega)]
    unfold incrementRateLimit
    rw [hget]
    dsimp only []
    rw [find?_kvPut_self]
    simp only [Option.some.injEq, KVEntry.mk.injEq, true_and, and_true]
    interval_cases k <;> decide

/-- One valid, rate-admitted, cache-missing request succeeds: it calls the
pipeline once, answers 200 with `cached = false`, writes the cache entry
and increments the counter. -/
theorem plan_step_ok (pipeline : Json → UpstreamResult) (c : PlanCtx) (st : WorkerState)
    (ip : String)
    (hipc : c.clientIPHeader = some ip)
    (hvalid : ValidPlanB pipeline c = true)
    (hrl : checkRateLimit st.rateLimit c.now ip = false)
    (hmiss : cacheReadJson st.roadmapCache c.now (keyOf c) = .miss) :
    ∃ r, handlePlanRequest pipeline c st =
      ⟨planSuccessResponse r false,
       ⟨kvPut st.roadmapCache c.now (keyOf c) (Json.stringify r) 604800,
        incrementRateLimit st.rateLimit c.now ip⟩, true⟩ := by
  unfold ValidPlanB at hvalid
  rcases hqz : quizOf c with _ | q
  · rw [hqz] at hvalid
    simp at hvalid
  · rw [hqz] at hvalid
    dsimp only [] at hvalid
    cases hp : pipeline q with
    | err =>
      rw [hp] at hvalid
      simp at hvalid
    | resp ok r =>
      cases ok with
      | false =>
        rw [hp] at hvalid
        simp at hvalid
      | true =>
        rw [hp] at hvalid
        simp only [Bool.and_eq_true] at hvalid
        obtain ⟨⟨hc, hbud⟩, -⟩ := hvalid
        rcases hb : c.body with _ | bj
        · rw [quizOf, hb] at hqz
          simp at hqz
        · have hq : jsonGet bj "quiz_data" = some q := by
            rw [quizOf, hb] at hqz
            simpa using hqz
          have hnn : bj.isNull = false := isNull_false_of_jsonGet hq
          have hkey : keyOf c = planCacheKey q := by
            rw [keyOf, hqz]
          rw [hkey] at hmiss ⊢
          refine ⟨r, ?_⟩
          unfold handlePlanRequest
          simp [hipc, hrl, hb, hnn, hq, hc, hbud, hmiss, hp]

/-- Running a batch of admissible requests: every outcome is a fresh 200
with one pipeline call each, and the counter ends at the batch size. -/
theorem runPlans_ok (pipeline : Json → UpstreamResult) (ip : String) (t0 : Nat)
    (reqs : List PlanCtx) :
    ∀ (k : Nat) (st : WorkerState),
      k + reqs.length ≤ 10 →
      (∀ c ∈ reqs, c.clientIPHeader = some ip) →
      (∀ c ∈ reqs, t0 ≤ c.now ∧ c.now < t0 + 3600) →
      (∀ c ∈ reqs, ValidPlanB pipeline c = true) →
      (reqs.map keyOf).Pairwise (fun a b => ¬ a = b) →
      (∀ c ∈ reqs, cacheReadJson st.roadmapCache c.now (keyOf c) = .miss) →
      RLInv st.rateLimit ip k t0 →
      (∀ o ∈ (runPlans pipeline reqs st).1, o.pipelineCalled = true ∧ o.resp.status = 200) ∧
      RLInv (runPlans pipeline reqs st).2.rateLimit ip (k + reqs.length) t0 ∧
      (runPlans pipeline reqs st).1.length = reqs.length := by
  induction reqs with
  | nil =>
    intro k st _ _ _ _ _ _ hinv
    refine ⟨by simp [runPlans], ?_, by simp [runPlans]⟩
    simpa [runPlans] using hinv
  | cons c tl ih =>
    intro k st hlen hip htime hvalid hkeys hmiss hinv
    have hk9 : k ≤ 9 := by
      simp only [List.length_cons] at hlen
      omega
    have htc := htime c (List.mem_cons_self c tl)
    obtain ⟨r, hstep⟩ := plan_step_ok pipeline c st ip (hip c (List.mem_cons_self c tl))
      (hvalid c (List.mem_cons_self c tl))
      (rl_check_lt hinv hk9 htc.2)
      (hmiss c (List.mem_cons_self c tl))
    have hinv1 : RLInv (incrementRateLimit st.rateLimit c.now ip) ip (k + 1) t0 :=
      rl_increment hinv hk9 htc.1 htc.2
    have hmiss1 : ∀ c' ∈ tl,
        cacheReadJson (kvPut st.roadmapCache c.now (keyOf c) (Json.stringify r) 604800)
          c'.now (keyOf c') = .miss := by
      intro c' hc'
      have hne : ¬ keyOf c' = keyOf c := by
        have hpc := (List.pairwise_cons.mp hkeys).1 (keyOf c')
          (List.mem_map_of_mem keyOf hc')
        exact fun h => hpc h.symm
      unfold cacheReadJson
      rw [kvGet_put_other _ _ _ _ _ _ _ hne]
      have hm := hmiss c' (List.mem_cons_of_mem c hc')
      unfold cacheReadJson at hm
      exact hm
    have hrest := ih (k + 1)
      ⟨kvPut st.roadmapCache c.now (keyOf c) (Json.stringify r) 604800,
       incrementRateLimit st.rateLimit c.now ip⟩
      (by simp only [List.length_cons] at hlen; omega)
      (fun c' hc' => hip c' (List.mem_cons_of_mem c hc'))
      (fun c' hc' => htime c' (List.mem_cons_of_mem c hc'))
      (fun c' hc' => hvalid c' (List.mem_cons_of_mem c hc'))
      ((List.pairwise_cons.mp hkeys).2)
      hmiss1 hinv1
    have hrun : runPlans pipeline (c :: tl) st =
        (handlePlanRequest pipeline c st ::
          (runPlans pipeline tl
            ⟨kvPut st.roadmapCache c.now (keyOf c) (Json.stringify r) 604800,
             incrementRateLimit st.rateLimit c.now ip⟩).1,
         (runPlans pipeline tl
            ⟨kvPut st.roadmapCache c.now (keyOf c) (Json.stringify r) 604800,
             incrementRateLimit st.rateLimit c.now ip⟩).2) := by
      rw [runPlans, hstep]
    rw [hrun]
    refine ⟨?_, ?_, ?_⟩
    · intro o ho
      rcases List.mem_cons.mp ho with rfl | ho'
      · rw [hstep]
        exact ⟨rfl, rfl⟩
      · exact hrest.1 o ho'
    · have := hrest.2.1
      simp only [List.length_cons]
      have harith : k + (tl.length + 1) = k + 1 + tl.length := by omega
      rw [harith]
      exact this
    · simp only [List.length_cons, hrest.2.2]

/-- C2: a single client identity issuing ten distinct valid (non-cached)
plan requests inside one hour drives its counter to the ceiling; the
eleventh request in the window is rejected with the constant 429 response
and the collaborator is invoked exactly ten times over the eleven requests.
Moreover a client at the ceiling always gets the immediate 429 outcome:
constant response, untouched stores, no cache access, no pipeline call. -/
theorem plan_rate_limit_ceiling (pipeline : Json → UpstreamResult) (ip : String) (t0 : Nat)
    (reqs : List PlanCtx) (r11 : PlanCtx) (st : WorkerState)
    (hlen : reqs.length = 10)
    (hip : ∀ c ∈ reqs, c.clientIPHeader = some ip)
    (hip11 : r11.clientIPHeader = some ip)
    (htime : ∀ c ∈ reqs, t0 ≤ c.now ∧ c.now < t0 + 3600)
    (ht11 : r11.now < t0 + 3600)
    (hvalid : ∀ c ∈ reqs, ValidPlanB pipeline c = true)
    (hkeys : (reqs.map keyOf).Pairwise (fun a b => ¬ a = b))
    (hmiss : ∀ c ∈ reqs, cacheReadJson st.roadmapCache c.now (keyOf c) = .miss)
    (hinv : RLInv st.rateLimit ip 0 t0) :
    handlePlanRequest pipeline r11 (runPlans pipeline reqs st).2
      = ⟨rateLimitedResponse, (runPlans pipeline reqs st).2, false⟩ ∧
    rateLimitedResponse.status = 429 ∧
    ((runPlans pipeline reqs st).1.filter (fun o => o.pipelineCalled)).length = 10 ∧
    (∀ (ctx : PlanCtx) (st' : WorkerState),
      checkRateLimit st'.rateLimit ctx.now (ctx.clientIPHeader.getD "unknown") = true →
      handlePlanRequest pipeline ctx st' = ⟨rateLimitedResponse, st', false⟩) := by
  have hrun := runPlans_ok pipeline ip t0 reqs 0 st (by omega) hip htime hvalid hkeys hmiss hinv
  have hinv10 : RLInv (runPlans pipeline reqs st).2.rateLimit ip 10 t0 := by
    have h10 := hrun.2.1
    rw [hlen] at h10
    exact h10
  have hchk : checkRateLimit (runPlans pipeline reqs st).2.rateLimit r11.now
      (r11.clientIPHeader.getD "unknown") = true := by
    rw [hip11]
    simp only [Option.getD_some]
    exact rl_check_ge hinv10 ht11
  refine ⟨ratelimited_shortcircuit _ _ _ hchk, rfl, ?_,
    fun ctx st' h => ratelimited_shortcircuit _ _ _ h⟩
  rw [List.filter_eq_self.mpr (fun o ho => (hrun.1 o ho).1), hrun.2.2, hlen]

/-- A quiz-varying request family for the C2 witness. -/
def wReq (i : Nat) : PlanCtx :=
  ⟨some "10.0.0.1",
   some (.obj [("quiz_data",
     .obj [("career", .str (⟨natToChars i⟩ : String)), ("budget", .str "low")])]),
   i⟩

/-- Ten distinct requests for the C2 witness. -/
def wReqs : List PlanCtx :=
  [wReq 0, wReq 1, wReq 2, wReq 3, wReq 4, wReq 5, wReq 6, wReq 7, wReq 8, wReq 9]

set_option maxRecDepth 100000 in
/-- Witness for C2 on ten concrete distinct requests and an eleventh. -/
theorem plan_rate_limit_ceiling_witness :
    handlePlanRequest (okPipeline wRoadmap) (wReq 10)
        (runPlans (okPipeline wRoadmap) wReqs ⟨[], []⟩).2
      = ⟨rateLimitedResponse, (runPlans (okPipeline wRoadmap) wReqs ⟨[], []⟩).2, false⟩ ∧
    ((runPlans (okPipeline wRoadmap) wReqs ⟨[], []⟩).1.filter
      (fun o => o.pipelineCalled)).length = 10 := by
  have h := plan_rate_limit_ceiling (okPipeline wRoadmap) "10.0.0.1" 0 wReqs (wReq 10) ⟨[], []⟩
    rfl (by decide) rfl (by decide) (by decide) (by decide) (by decide)
    (by
      intro c hc
      simp only [wReqs, List.mem_cons, List.not_mem_nil, or_false] at hc
      rcases hc with rfl | rfl | rfl | rfl | rfl | rfl | rfl | rfl | rfl | rfl <;> rfl)
    (Or.inl ⟨rfl, rfl⟩)
  exact ⟨h.1, h.2.2.1⟩

end CareerPilot

